import Mathlib

/-!
# Investment Ledger & Aggregation Engine — verification development

Shallow embedding of the investment-ledger subsystem of the
DecentralizedVentures repository, together with theorems settling the
frozen claims about it.

The repository contains two overlapping implementations of the ledger:

* the server-side in-memory store `MemStorage` (`src/server/storage.ts`),
  fronted by the Express routes (`src/server/routes.ts`); and
* the Firestore client implementation (`src/client/src/firebase/firestore.ts`),
  driven by the investment modal
  (`src/client/src/components/investor/InvestmentModal.tsx`) and the UPI
  helpers (`validateUPITransactionId` and friends).

Both are embedded below, each in its own namespace.  Amounts are modelled
as rationals (`Rat`), JavaScript `Map`s as insertion-ordered lists keyed by
their key field, Firestore collections as association lists keyed by the
document id, and `Set(...).size` as `List.dedup.length`.  `createdAt`
timestamps and the newest-first orderings derived from them are not
modelled: no claim refers to them, and every derived statistic in scope is
order-independent.  Thrown JavaScript errors are modelled as explicit
error results.
-/

/-- JavaScript `a || b` for an optional string `a` (as in
`transactionHash || transaction.transactionId`): the fallback is used when
`a` is `undefined` or the empty string (falsy). -/
def jsStrOr (a : Option String) (b : Option String) : Option String :=
  match a with
  | none => b
  | some s => if s = "" then b else some s

namespace MemStorage

/-- A row of the `transactions` table held by `MemStorage`
(`src/shared/schema.ts` lines 103–116; fields irrelevant to the ledger —
names, wallet address, timestamps — are omitted).  `transactionId` is the
rail reference (wallet transaction hash or UPI reference code). -/
structure Txn where
  id : Nat
  investorId : String
  startupId : String
  amount : Rat
  method : String
  status : String
  transactionId : Option String
  deriving Repr, DecidableEq

/-- The fields of `InsertTransaction` used by `createTransaction`. -/
structure InsertTxn where
  investorId : String
  startupId : String
  amount : Rat
  method : String
  status : String
  transactionId : Option String
  deriving Repr, DecidableEq

/-- A row of the `startups` table (the campaign aggregate): numeric primary
key `id`, the `firebaseId` by which transactions reference it, and the
funding fields mutated by `updateStartupFunding`. -/
structure Startup where
  id : Nat
  firebaseId : String
  fundingGoal : Rat
  fundingRaised : Rat
  investors : Nat
  deriving Repr, DecidableEq

/-- The private state of `MemStorage`: the `startups` and `transactions`
maps (insertion-ordered lists) and the transaction id counter. -/
structure State where
  startups : List Startup
  transactions : List Txn
  currentTransactionId : Nat
  deriving Repr, DecidableEq

/-- `getStartupByFirebaseId`: first startup whose `firebaseId` matches. -/
def getStartupByFirebaseId (st : State) (firebaseId : String) : Option Startup :=
  st.startups.find? (fun s => s.firebaseId == firebaseId)

/-- `getStartupById`: lookup by numeric primary key. -/
def getStartupById (st : State) (id : Nat) : Option Startup :=
  st.startups.find? (fun s => s.id == id)

/-- `getTransactionById`: lookup by numeric primary key. -/
def getTransactionById (st : State) (id : Nat) : Option Txn :=
  st.transactions.find? (fun t => t.id == id)

/-- The filter used throughout `MemStorage`: all transactions of the given
startup whose status is `completed`. -/
def completedFor (txs : List Txn) (firebaseId : String) : List Txn :=
  txs.filter (fun t => t.startupId == firebaseId && t.status == "completed")

/-- `completedTransactions.reduce((sum, t) => sum + Number(t.amount), 0)`. -/
def totalFunding (txs : List Txn) (firebaseId : String) : Rat :=
  (completedFor txs firebaseId).foldl (fun sum t => sum + t.amount) 0

/-- `new Set(completedTransactions.map(t => t.investorId)).size`. -/
def uniqueInvestors (txs : List Txn) (firebaseId : String) : Nat :=
  ((completedFor txs firebaseId).map (fun t => t.investorId)).dedup.length

/-- `updateStartupFunding` (`storage.ts` lines 280–303): recompute the
startup's `fundingRaised` and `investors` by a full scan of the completed
transactions for `transaction.startupId`; no-op when no startup has that
`firebaseId`. -/
def updateStartupFunding (st : State) (transaction : Txn) : State :=
  match getStartupByFirebaseId st transaction.startupId with
  | none => st
  | some startup =>
    { st with
      startups := st.startups.map (fun s =>
        if s.id == startup.id then
          { s with
            fundingRaised := totalFunding st.transactions transaction.startupId
            investors := uniqueInvestors st.transactions transaction.startupId }
        else s) }

/-- `createTransaction` (`storage.ts` lines 260–278): assign the next id,
store the record, and — only when the stored status is `completed` —
recompute the startup funding.  There is no validation of `amount`. -/
def createTransaction (st : State) (ins : InsertTxn) : Txn × State :=
  let id := st.currentTransactionId
  let transaction : Txn :=
    { id := id
      investorId := ins.investorId
      startupId := ins.startupId
      amount := ins.amount
      method := ins.method
      status := ins.status
      transactionId := ins.transactionId }
  let st1 : State :=
    { st with
      transactions := st.transactions ++ [transaction]
      currentTransactionId := st.currentTransactionId + 1 }
  let st2 := if transaction.status == "completed" then updateStartupFunding st1 transaction else st1
  (transaction, st2)

/-- `updateTransactionStatus` (`storage.ts` lines 329–357): overwrite the
status (and the rail reference, when a truthy hash is supplied), then
recompute the startup funding only when the update crosses the
`completed` boundary in either direction.  No transition validation is
performed. -/
def updateTransactionStatus (st : State) (id : Nat) (status : String)
    (transactionHash : Option String) : Option Txn × State :=
  match getTransactionById st id with
  | none => (none, st)
  | some transaction =>
    let previousStatus := transaction.status
    let updatedTransaction : Txn :=
      { transaction with
        status := status
        transactionId := jsStrOr transactionHash transaction.transactionId }
    let st1 : State :=
      { st with
        transactions := st.transactions.map (fun t =>
          if t.id == id then updatedTransaction else t) }
    let st2 :=
      if (status == "completed" && previousStatus != "completed")
          || (status != "completed" && previousStatus == "completed") then
        updateStartupFunding st1 updatedTransaction
      else st1
    (some updatedTransaction, st2)

/-- Result of `getInvestorStats`. -/
structure InvestorStats where
  totalInvested : Rat
  activeInvestments : Nat
  totalTransactions : Nat
  deriving Repr, DecidableEq

/-- `getInvestorStats` (`storage.ts` lines 360–381): over the investor's
completed transactions only — sum of amounts, number of distinct startups,
and the count.  (The newest-first sort applied by
`getTransactionsByInvestorId` does not affect any of the three values and
is not modelled.) -/
def getInvestorStats (st : State) (investorId : String) : InvestorStats :=
  let transactions := st.transactions.filter (fun t => t.investorId == investorId)
  let completedTransactions := transactions.filter (fun t => t.status == "completed")
  { totalInvested := completedTransactions.foldl (fun sum t => sum + t.amount) 0
    activeInvestments := (completedTransactions.map (fun t => t.startupId)).dedup.length
    totalTransactions := completedTransactions.length }

/-- Result of `getStartupStats`. -/
structure StartupStats where
  fundingRaised : Rat
  fundingGoal : Rat
  progress : Rat
  investors : Nat
  totalTransactions : Nat
  deriving Repr, DecidableEq

/-- `getStartupStats` (`storage.ts` lines 383–413): throws
`Startup with ID ... not found` when the id is unknown (modelled as
`Except.error`), otherwise reads `fundingRaised`/`fundingGoal` from the
stored aggregate and recomputes the distinct-investor and completed
counts from the transaction log. -/
def getStartupStats (st : State) (startupId : Nat) : Except String StartupStats :=
  match getStartupById st startupId with
  | none => .error ("Startup with ID " ++ toString startupId ++ " not found")
  | some startup =>
    let fundingRaised := startup.fundingRaised
    let fundingGoal := startup.fundingGoal
    .ok
      { fundingRaised := fundingRaised
        fundingGoal := fundingGoal
        progress := if fundingGoal > 0 then fundingRaised / fundingGoal * 100 else 0
        investors := uniqueInvestors st.transactions startup.firebaseId
        totalTransactions := (completedFor st.transactions startup.firebaseId).length }

/-- The correctness contract of §3 of the spec, over the embedded server
state: every stored campaign aggregate matches a full recomputation from
the transaction log. -/
def AggregatesConsistent (st : State) : Prop :=
  ∀ s ∈ st.startups,
    s.fundingRaised = totalFunding st.transactions s.firebaseId ∧
    s.investors = uniqueInvestors st.transactions s.firebaseId

instance (st : State) : Decidable (AggregatesConsistent st) := by
  unfold AggregatesConsistent
  infer_instance

end MemStorage

namespace Routes

/-- `PATCH /api/transactions/:id/status` (`routes.ts` lines 259–277): the
route rejects status values outside the three known ones with a 400,
returns 404 when the transaction is unknown, and otherwise applies
`storage.updateTransactionStatus` unconditionally — there is no
transition validation. -/
inductive PatchResult where
  | badRequest (msg : String)
  | notFound (msg : String)
  | okJson (t : MemStorage.Txn)
  deriving Repr, DecidableEq

/-- The route handler for `PATCH /api/transactions/:id/status`. -/
def patchTransactionStatus (st : MemStorage.State) (id : Nat) (status : String)
    (transactionHash : Option String) : PatchResult × MemStorage.State :=
  if !(status == "pending" || status == "completed" || status == "failed") then
    (.badRequest "Invalid status value", st)
  else
    match MemStorage.updateTransactionStatus st id status transactionHash with
    | (none, st') => (.notFound "Transaction not found", st')
    | (some t, st') => (.okJson t, st')

end Routes

namespace Firestore

/-- A document of the `transactions` collection
(`firestore.ts` `TransactionData`; display names, wallet address and
timestamps omitted). -/
structure TxnData where
  investorId : String
  startupId : String
  amount : Rat
  method : String
  status : String
  transactionId : Option String
  deriving Repr, DecidableEq

/-- A document of the `startups` collection (funding fields only). -/
structure StartupData where
  fundingGoal : Rat
  fundingRaised : Rat
  investors : Nat
  deriving Repr, DecidableEq

/-- The two Firestore collections touched by the ledger, as association
lists keyed by document id, plus a counter used to mint fresh document
ids for `addDoc`. -/
structure State where
  startups : List (String × StartupData)
  transactions : List (String × TxnData)
  nextDocId : Nat
  deriving Repr, DecidableEq

/-- `getDoc(doc(firestore, coll, id))` as association-list lookup. -/
def getDocIn {α : Type} (coll : List (String × α)) (id : String) : Option α :=
  (coll.find? (fun p => p.1 == id)).map (fun p => p.2)

/-- `updateDoc`-style in-place replacement of the document with the given id. -/
def setDocIn {α : Type} (coll : List (String × α)) (id : String) (v : α) :
    List (String × α) :=
  coll.map (fun p => if p.1 == id then (id, v) else p)

/-- `createTransaction` (`firestore.ts` lines 347–395): `addDoc` the new
transaction, then — whenever the startup document exists — add the amount
to `fundingRaised` **regardless of the transaction's status**, and
increment `investors` exactly when the completed-transactions query for
this startup/investor pair (run after the `addDoc`, so it sees the new
document when its status is `completed`) comes back empty. -/
def createTransaction (st : State) (transactionData : TxnData) : String × State :=
  let docId := "tx" ++ toString st.nextDocId
  let st1 : State :=
    { st with
      transactions := st.transactions ++ [(docId, transactionData)]
      nextDocId := st.nextDocId + 1 }
  match getDocIn st1.startups transactionData.startupId with
  | none => (docId, st1)
  | some startupData =>
    let newFundingRaised := startupData.fundingRaised + transactionData.amount
    let investorQuerySnapshot := st1.transactions.filter (fun p =>
      p.2.startupId == transactionData.startupId
        && p.2.investorId == transactionData.investorId
        && p.2.status == "completed")
    let isNewInvestor := investorQuerySnapshot.isEmpty
    let newInvestorsCount :=
      if isNewInvestor then startupData.investors + 1 else startupData.investors
    (docId,
      { st1 with
        startups := setDocIn st1.startups transactionData.startupId
          { startupData with
            fundingRaised := newFundingRaised
            investors := newInvestorsCount } })

/-- `updateTransactionStatus` (`firestore.ts` lines 397–437): write the new
status (and the hash, when truthy) to the transaction document; then, when
the new status is `failed`, re-read the document — whose status has just
been overwritten — and revert the startup funding only if that re-read
status is `completed` (which it never is), clamping the subtraction at
zero.  Returns `none` when the transaction document does not exist
(`updateDoc` rejects). -/
def updateTransactionStatus (st : State) (transactionId : String) (status : String)
    (transactionHash : Option String) : Option State :=
  match getDocIn st.transactions transactionId with
  | none => none
  | some transaction =>
    let updated : TxnData :=
      { transaction with
        status := status
        transactionId := jsStrOr transactionHash transaction.transactionId }
    let st1 : State := { st with transactions := setDocIn st.transactions transactionId updated }
    if status == "failed" then
      match getDocIn st1.transactions transactionId with
      | none => some st1
      | some transactionData =>
        if transactionData.status == "completed" then
          match getDocIn st1.startups transactionData.startupId with
          | none => some st1
          | some startupData =>
            let newFundingRaised := startupData.fundingRaised - transactionData.amount
            some
              { st1 with
                startups := setDocIn st1.startups transactionData.startupId
                  { startupData with
                    fundingRaised := if newFundingRaised > 0 then newFundingRaised else 0 } }
        else some st1
    else some st1

/-- `getInvestorStats` (`firestore.ts` lines 467–495): query the
transactions with this `investorId` and status `completed`; sum the
amounts, collect the distinct startup ids, and count the documents. -/
def getInvestorStats (st : State) (investorId : String) : MemStorage.InvestorStats :=
  let snapshot := st.transactions.filter (fun p =>
    p.2.investorId == investorId && p.2.status == "completed")
  { totalInvested := snapshot.foldl (fun sum p => sum + p.2.amount) 0
    activeInvestments := (snapshot.map (fun p => p.2.startupId)).dedup.length
    totalTransactions := snapshot.length }

/-- `getStartupStats` (`firestore.ts` lines 497–532): throws
`Startup not found` for a missing startup document; otherwise reads the
stored `fundingRaised`/`fundingGoal`, computes the progress with a JS
truthiness test on the goal, and recomputes distinct investors and the
completed count from the completed-transactions query. -/
def getStartupStats (st : State) (startupId : String) :
    Except String MemStorage.StartupStats :=
  match getDocIn st.startups startupId with
  | none => .error "Startup not found"
  | some startupData =>
    let snapshot := st.transactions.filter (fun p =>
      p.2.startupId == startupId && p.2.status == "completed")
    .ok
      { fundingRaised := startupData.fundingRaised
        fundingGoal := startupData.fundingGoal
        progress :=
          if startupData.fundingGoal ≠ 0 then
            startupData.fundingRaised / startupData.fundingGoal * 100
          else 0
        investors := (snapshot.map (fun p => p.2.investorId)).dedup.length
        totalTransactions := snapshot.length }

end Firestore

namespace Upi

/-- Characters trimmed by JavaScript `String.prototype.trim` (the ASCII
whitespace relevant here; exotic Unicode whitespace is not modelled). -/
def isJsWhitespace (c : Char) : Bool :=
  c == ' ' || c == '\t' || c == '\n' || c == '\r'

/-- JavaScript `s.trim()`: strip leading and trailing whitespace. -/
def jsTrim (s : String) : String :=
  ⟨((s.data.dropWhile isJsWhitespace).reverse.dropWhile isJsWhitespace).reverse⟩

/-- The character class `[a-zA-Z0-9_-]` of the UPI reference regex. -/
def isUpiChar (c : Char) : Bool :=
  (('a' ≤ c && c ≤ 'z') || ('A' ≤ c && c ≤ 'Z') || ('0' ≤ c && c ≤ '9'))
    || c == '_' || c == '-'

/-- The anchored regex `/^[a-zA-Z0-9_-]{12,}$/`: twelve or more characters,
all drawn from the class. -/
def upiTxIdRegexTest (s : String) : Bool :=
  decide (12 ≤ s.length) && s.data.all isUpiChar

/-- `validateUPITransactionId` (`src/unnamed/part_000` lines 58–67): false
for a falsy or all-whitespace input, otherwise the regex test on the
trimmed input. -/
def validateUPITransactionId (transactionId : String) : Bool :=
  if transactionId == "" || (jsTrim transactionId).length == 0 then false
  else upiTxIdRegexTest (jsTrim transactionId)

/-- The syntactic check as the spec words it: after trimming, the code is
non-empty, consists only of letters, digits, hyphens or underscores, and
is at least 12 characters long. -/
def SpecReferenceCheck (code : String) : Prop :=
  jsTrim code ≠ "" ∧ (∀ c ∈ (jsTrim code).data, isUpiChar c = true) ∧
    12 ≤ (jsTrim code).length

instance (code : String) : Decidable (SpecReferenceCheck code) := by
  unfold SpecReferenceCheck
  infer_instance

end Upi

namespace InvestmentModal

/-- The UPI branch of `handleSubmit`
(`InvestmentModal.tsx` lines 169–191), preceded by the shared amount
guard `isNaN(parseFloat(amount)) || parseFloat(amount) <= 0`.  The parsed
amount is `none` for an unparseable input (NaN).  When both guards pass,
`Firestore.createTransaction` is invoked with `status: 'completed'` and
the user-supplied code as `transactionId`; otherwise nothing is created.
Returns the state and whether a transaction was created. -/
def handleSubmitUpi (st : Firestore.State) (investorId startupId : String)
    (amount : Option Rat) (transactionId : String) : Firestore.State × Bool :=
  match amount with
  | none => (st, false)
  | some a =>
    if a ≤ 0 then (st, false)
    else if !Upi.validateUPITransactionId transactionId then (st, false)
    else
      let result := Firestore.createTransaction st
        { investorId := investorId
          startupId := startupId
          amount := a
          method := "upi"
          status := "completed"
          transactionId := some transactionId }
      (result.2, true)

end InvestmentModal

/-! ## Observers and concrete fixtures used by the theorems -/

/-- Observer: the stored `fundingRaised` of the campaign with this
`firebaseId` in the server state. -/
def MemStorage.raisedOf (st : MemStorage.State) (firebaseId : String) : Option Rat :=
  (MemStorage.getStartupByFirebaseId st firebaseId).map (fun s => s.fundingRaised)

/-- Observer: the stored startup document for this campaign id in the
Firestore state. -/
def Firestore.startupDoc (st : Firestore.State) (startupId : String) :
    Option Firestore.StartupData :=
  Firestore.getDocIn st.startups startupId

/-- Observer (the spec's definition of `raised`): sum of the amounts of the
campaign's transactions whose status is `completed`, in the Firestore
state. -/
def Firestore.completedSum (st : Firestore.State) (startupId : String) : Rat :=
  (st.transactions.filter (fun p =>
    p.2.startupId == startupId && p.2.status == "completed")).foldl
      (fun sum p => sum + p.2.amount) 0

/-- Observer: number of the campaign's `completed` transactions in the
Firestore state. -/
def Firestore.completedCount (st : Firestore.State) (startupId : String) : Nat :=
  (st.transactions.filter (fun p =>
    p.2.startupId == startupId && p.2.status == "completed")).length

/-- Server fixture: one fresh campaign (`firebaseId` "s1", goal 1000,
nothing raised), no transactions. -/
def stA : MemStorage.State :=
  { startups := [{ id := 1, firebaseId := "s1", fundingGoal := 1000, fundingRaised := 0, investors := 0 }]
    transactions := []
    currentTransactionId := 1 }

/-- Server fixture (the spec's Scenario A already applied): campaign "s1"
holds one completed offline investment of 300 by investor "X". -/
def stB : MemStorage.State :=
  { startups := [{ id := 1, firebaseId := "s1", fundingGoal := 1000, fundingRaised := 300, investors := 1 }]
    transactions := [{ id := 1, investorId := "X", startupId := "s1", amount := 300,
                       method := "upi", status := "completed", transactionId := some "ABCDEF123456" }]
    currentTransactionId := 2 }

/-- Server fixture: campaign "s1" with a single `failed` transaction of 100
(a consistent state: nothing counted). -/
def stFailedTx : MemStorage.State :=
  { startups := [{ id := 1, firebaseId := "s1", fundingGoal := 1000, fundingRaised := 0, investors := 0 }]
    transactions := [{ id := 1, investorId := "X", startupId := "s1", amount := 100,
                       method := "metamask", status := "failed", transactionId := none }]
    currentTransactionId := 2 }

/-- Firestore fixture: one fresh campaign document "s1", no transactions. -/
def fsA : Firestore.State :=
  { startups := [("s1", { fundingGoal := 1000, fundingRaised := 0, investors := 0 })]
    transactions := []
    nextDocId := 0 }

/-- Firestore fixture: campaign "s1" whose stored `fundingRaised` (50) is
smaller than the amount (100) of its completed transaction "t1", so a
reverse of "t1" would drive `raised` below zero. -/
def fsClampCase : Firestore.State :=
  { startups := [("s1", { fundingGoal := 1000, fundingRaised := 50, investors := 1 })]
    transactions := [("t1", { investorId := "X", startupId := "s1", amount := 100,
                              method := "upi", status := "completed",
                              transactionId := some "ABCDEF123456" })]
    nextDocId := 2 }

/-- Scenario B, step 1 (server): from `stB`, investor "X" opens a further
wallet investment of 200, stored `pending`. -/
def stB1 : MemStorage.State :=
  (MemStorage.createTransaction stB
    { investorId := "X", startupId := "s1", amount := 200, method := "metamask",
      status := "pending", transactionId := none }).2

/-- Scenario B, step 2 (server): the wallet rail confirms transaction 2
with hash "0xHASH". -/
def stB2 : MemStorage.State :=
  (MemStorage.updateTransactionStatus stB1 2 "completed" (some "0xHASH")).2

/-- Round trip, step 1 (server): from the fresh campaign `stA`, open a
wallet investment of 100 (`pending`). -/
def stRt1 : MemStorage.State :=
  (MemStorage.createTransaction stA
    { investorId := "X", startupId := "s1", amount := 100, method := "metamask",
      status := "pending", transactionId := none }).2

/-- Round trip, step 2 (server): confirm transaction 1. -/
def stRt2 : MemStorage.State :=
  (MemStorage.updateTransactionStatus stRt1 1 "completed" (some "0xh")).2

/-- Round trip, step 3 (server): reverse transaction 1. -/
def stRt3 : MemStorage.State :=
  (MemStorage.updateTransactionStatus stRt2 1 "failed" none).2

/-- Round trip, step 1 (Firestore): from the fresh campaign `fsA`, the
modal's wallet path creates a `pending` transaction of 100 (document
"tx0"). -/
def fsRt1 : Firestore.State :=
  (Firestore.createTransaction fsA
    { investorId := "X", startupId := "s1", amount := 100, method := "metamask",
      status := "pending", transactionId := none }).2

/-- Round trip, step 2 (Firestore): the wallet rail confirms "tx0". -/
def fsRt2 : Firestore.State :=
  (Firestore.updateTransactionStatus fsRt1 "tx0" "completed" (some "0xh")).getD fsRt1

/-- Round trip, step 3 (Firestore): "tx0" is reversed. -/
def fsRt3 : Firestore.State :=
  (Firestore.updateTransactionStatus fsRt2 "tx0" "failed" none).getD fsRt2

/-! ## Helper lemmas about the server model -/

namespace MemStorage

theorem updateStartupFunding_transactions (st : State) (t : Txn) :
    (updateStartupFunding st t).transactions = st.transactions := by
  unfold updateStartupFunding
  cases getStartupByFirebaseId st t.startupId <;> rfl

theorem filter_map_pred_eq {g : Txn → Txn} {p : Txn → Bool} :
    ∀ {txs : List Txn}, (∀ t ∈ txs, p (g t) = p t) →
      (txs.map g).filter p = (txs.filter p).map g := by
  intro txs
  induction txs with
  | nil => intro _; rfl
  | cons t ts ih =>
    intro h
    have ht := h t (by simp)
    have hts := ih (fun x hx => h x (by simp [hx]))
    simp only [List.map_cons, List.filter_cons, ht]
    cases hp : p t <;> simp [hp, hts]

theorem foldl_amount_map {g : Txn → Txn} :
    ∀ (l : List Txn) (a : Rat), (∀ t ∈ l, (g t).amount = t.amount) →
      (l.map g).foldl (fun s t => s + t.amount) a = l.foldl (fun s t => s + t.amount) a := by
  intro l
  induction l with
  | nil => intro _ _; rfl
  | cons t ts ih =>
    intro a h
    simp only [List.map_cons, List.foldl_cons, h t (by simp)]
    exact ih _ (fun x hx => h x (by simp [hx]))

theorem map_investorId_map {g : Txn → Txn} (l : List Txn)
    (h : ∀ t ∈ l, (g t).investorId = t.investorId) :
    (l.map g).map (fun t => t.investorId) = l.map (fun t => t.investorId) := by
  rw [List.map_map]
  exact List.map_congr_left h

/-- Replacing transactions without changing their startup, amount, investor,
or completed-membership leaves both derived aggregates unchanged. -/
theorem aggregates_map_eq (g : Txn → Txn) (txs : List Txn) (fid : String)
    (hpred : ∀ t ∈ txs,
      (((g t).startupId == fid) && ((g t).status == "completed"))
        = ((t.startupId == fid) && (t.status == "completed")))
    (hamount : ∀ t ∈ txs, (g t).amount = t.amount)
    (hinv : ∀ t ∈ txs, (g t).investorId = t.investorId) :
    totalFunding (txs.map g) fid = totalFunding txs fid ∧
      uniqueInvestors (txs.map g) fid = uniqueInvestors txs fid := by
  have hf : completedFor (txs.map g) fid = (completedFor txs fid).map g :=
    filter_map_pred_eq hpred
  constructor
  · unfold totalFunding
    rw [hf]
    exact foldl_amount_map _ _ (fun t ht => hamount t (List.mem_of_mem_filter ht))
  · unfold uniqueInvestors
    rw [hf]
    have hmem : ∀ t ∈ completedFor txs fid, (g t).investorId = t.investorId :=
      fun t ht => hinv t (List.mem_of_mem_filter ht)
    rw [map_investorId_map _ hmem]

/-- Appending a transaction that is not a completed transaction of the
given startup leaves both derived aggregates unchanged. -/
theorem aggregates_append_of_not (txs : List Txn) (tx : Txn) (fid : String)
    (h : ((tx.startupId == fid) && (tx.status == "completed")) = false) :
    totalFunding (txs ++ [tx]) fid = totalFunding txs fid ∧
      uniqueInvestors (txs ++ [tx]) fid = uniqueInvestors txs fid := by
  have hf : completedFor (txs ++ [tx]) fid = completedFor txs fid := by
    unfold completedFor
    rw [List.filter_append]
    simp [h]
  constructor
  · unfold totalFunding; rw [hf]
  · unfold uniqueInvestors; rw [hf]

/-- With duplicate-free keys, any member sharing the key of a successful
`find?` is the found element. -/
theorem eq_of_find?_of_nodup {α β : Type} [DecidableEq β] {l : List α} {f : α → β}
    (hnd : (l.map f).Nodup) {a t : α}
    (hfind : l.find? (fun x => f x == f a) = some a)
    (ht : t ∈ l) (hkey : f t = f a) : t = a := by
  have ha : a ∈ l := List.mem_of_find?_eq_some hfind
  exact List.inj_on_of_nodup_map hnd ht ha hkey

/-- The reusable core of the invariant proof: after `updateStartupFunding`,
every aggregate is consistent with the (unchanged) transaction log,
provided the aggregates of all *other* campaigns already were. -/
theorem aggregates_after_updateStartupFunding (st1 : State) (u : Txn)
    (hids : (st1.startups.map (fun s => s.id)).Nodup)
    (hfids : (st1.startups.map (fun s => s.firebaseId)).Nodup)
    (hother : ∀ s ∈ st1.startups, s.firebaseId ≠ u.startupId →
      s.fundingRaised = totalFunding st1.transactions s.firebaseId ∧
        s.investors = uniqueInvestors st1.transactions s.firebaseId) :
    AggregatesConsistent (updateStartupFunding st1 u) := by
  unfold updateStartupFunding
  cases hfind : getStartupByFirebaseId st1 u.startupId with
  | none =>
    intro s hs
    refine hother s hs ?_
    have := List.find?_eq_none.mp hfind s hs
    simpa using this
  | some s0 =>
    have hs0mem : s0 ∈ st1.startups := List.mem_of_find?_eq_some hfind
    have hs0fid : s0.firebaseId = u.startupId := by
      have := List.find?_some hfind
      simpa using this
    intro s' hs'
    simp only [List.mem_map] at hs'
    obtain ⟨s, hs, rfl⟩ := hs'
    by_cases hid : s.id = s0.id
    · have hseq : s = s0 := List.inj_on_of_nodup_map hids hs hs0mem hid
      simp only [hid, beq_self_eq_true, if_pos]
      subst hseq
      simp [hs0fid]
    · have : (s.id == s0.id) = false := beq_eq_false_iff_ne.mpr hid
      simp only [this, Bool.false_eq_true, if_neg, not_false_iff]
      refine hother s hs ?_
      intro hfid
      exact hid (congrArg Startup.id
        (List.inj_on_of_nodup_map hfids hs hs0mem (hfid.trans hs0fid.symm)))

/-- `createTransaction` preserves the aggregate invariant (the recompute
path re-establishes it for the affected campaign; all other campaigns'
completed sets are untouched). -/
theorem createTransaction_preserves (st : State) (ins : InsertTxn)
    (hids : (st.startups.map (fun s => s.id)).Nodup)
    (hfids : (st.startups.map (fun s => s.firebaseId)).Nodup)
    (hinv : AggregatesConsistent st) :
    AggregatesConsistent (createTransaction st ins).2 := by
  unfold createTransaction
  dsimp only
  by_cases hc : (ins.status == "completed") = true
  · rw [if_pos hc]
    apply aggregates_after_updateStartupFunding <;> dsimp only
    · exact hids
    · exact hfids
    · intro s hs hfid
      have hne : (ins.startupId == s.firebaseId) = false :=
        beq_eq_false_iff_ne.mpr (fun h => hfid (h ▸ rfl))
      have happ := aggregates_append_of_not st.transactions
        { id := st.currentTransactionId
          investorId := ins.investorId
          startupId := ins.startupId
          amount := ins.amount
          method := ins.method
          status := ins.status
          transactionId := ins.transactionId } s.firebaseId (by simp [hne])
      rw [happ.1, happ.2]
      exact hinv s hs
  · rw [if_neg hc]
    intro s hs
    have hcf : (ins.status == "completed") = false := by
      cases h : (ins.status == "completed")
      · rfl
      · exact absurd h hc
    have happ := aggregates_append_of_not st.transactions
      { id := st.currentTransactionId
        investorId := ins.investorId
        startupId := ins.startupId
        amount := ins.amount
        method := ins.method
        status := ins.status
        transactionId := ins.transactionId } s.firebaseId (by simp [hcf])
    dsimp only
    rw [happ.1, happ.2]
    exact hinv s hs

/-- `updateTransactionStatus` preserves the aggregate invariant: a
boundary-crossing update triggers a full recompute for the affected
campaign, and any other update leaves every campaign's completed
multiset of (amount, investor) data unchanged. -/
theorem updateTransactionStatus_preserves (st : State) (id : Nat) (status : String)
    (hash : Option String)
    (hids : (st.startups.map (fun s => s.id)).Nodup)
    (hfids : (st.startups.map (fun s => s.firebaseId)).Nodup)
    (htids : (st.transactions.map (fun t => t.id)).Nodup)
    (hinv : AggregatesConsistent st) :
    AggregatesConsistent (updateTransactionStatus st id status hash).2 := by
  unfold updateTransactionStatus
  cases hfind : getTransactionById st id with
  | none => exact hinv
  | some tx0 =>
    dsimp only
    have hfind' : st.transactions.find? (fun t => t.id == id) = some tx0 := hfind
    have htx0mem : tx0 ∈ st.transactions := List.mem_of_find?_eq_some hfind'
    have htx0id : (tx0.id == id) = true := by
      have := List.find?_some hfind'
      simpa using this
    have hkey : ∀ t ∈ st.transactions, (t.id == id) = true → t = tx0 := by
      intro t ht htid
      exact List.inj_on_of_nodup_map htids ht htx0mem
        ((beq_iff_eq.mp htid).trans (beq_iff_eq.mp htx0id).symm)
    set u : Txn :=
      { tx0 with status := status, transactionId := jsStrOr hash tx0.transactionId } with hu
    by_cases hc :
        ((status == "completed" && tx0.status != "completed")
          || (status != "completed" && tx0.status == "completed")) = true
    · rw [if_pos hc]
      apply aggregates_after_updateStartupFunding <;> dsimp only
      · exact hids
      · exact hfids
      · intro s hs hfid
        have hagg := aggregates_map_eq (fun t => if t.id == id then u else t)
          st.transactions s.firebaseId
          (by
            intro t ht
            by_cases htid : (t.id == id) = true
            · have := hkey t ht htid
              subst this
              dsimp only
              rw [if_pos htid]
              have hne : (t.startupId == s.firebaseId) = false :=
                beq_eq_false_iff_ne.mpr (fun h => hfid (h ▸ rfl))
              simp [hu, hne]
            · dsimp only
              rw [if_neg htid])
          (by
            intro t ht
            by_cases htid : (t.id == id) = true
            · have := hkey t ht htid
              subst this
              dsimp only
              rw [if_pos htid]
            · dsimp only
              rw [if_neg htid])
          (by
            intro t ht
            by_cases htid : (t.id == id) = true
            · have := hkey t ht htid
              subst this
              dsimp only
              rw [if_pos htid]
            · dsimp only
              rw [if_neg htid])
        rw [hagg.1, hagg.2]
        exact hinv s hs
    · rw [if_neg hc]
      intro s hs
      dsimp only
      have hstat : (status == "completed") = (tx0.status == "completed") := by
        cases h1 : (status == "completed") <;> cases h2 : (tx0.status == "completed") <;>
          first
          | rfl
          | (exfalso; apply hc; simp [h1, h2, bne])
      have hagg := aggregates_map_eq (fun t => if t.id == id then u else t)
        st.transactions s.firebaseId
        (by
          intro t ht
          by_cases htid : (t.id == id) = true
          · have := hkey t ht htid
            subst this
            dsimp only
            rw [if_pos htid]
            simp only [hu]
            rw [hstat]
          · dsimp only
            rw [if_neg htid])
        (by
          intro t ht
          by_cases htid : (t.id == id) = true
          · have := hkey t ht htid
            subst this
            dsimp only
            rw [if_pos htid]
          · dsimp only
            rw [if_neg htid])
        (by
          intro t ht
          by_cases htid : (t.id == id) = true
          · have := hkey t ht htid
            subst this
            dsimp only
            rw [if_pos htid]
          · dsimp only
            rw [if_neg htid])
      rw [hagg.1, hagg.2]
      exact hinv s hs

end MemStorage

/-! ## Claims -/

/-- C1: For every campaign, after every ledger operation with no transition
in flight, the campaign's raised total equals the sum of the amounts of its
`completed` transactions and its investor count equals the number of
distinct investors among them — proved here as the amended, server-side
statement: in the `MemStorage` implementation, `createTransaction` and
`updateTransactionStatus` preserve the aggregate invariant, for states with
duplicate-free startup ids, startup `firebaseId`s, and transaction ids (the
schema declares all three unique). -/
theorem c1_server_ops_preserve_aggregate_invariant (st : MemStorage.State)
    (hids : (st.startups.map (fun s => s.id)).Nodup)
    (hfids : (st.startups.map (fun s => s.firebaseId)).Nodup)
    (htids : (st.transactions.map (fun t => t.id)).Nodup)
    (hinv : MemStorage.AggregatesConsistent st) :
    (∀ ins, MemStorage.AggregatesConsistent (MemStorage.createTransaction st ins).2) ∧
      (∀ id status hash,
        MemStorage.AggregatesConsistent
          (MemStorage.updateTransactionStatus st id status hash).2) :=
  ⟨fun ins => MemStorage.createTransaction_preserves st ins hids hfids hinv,
   fun id status hash =>
     MemStorage.updateTransactionStatus_preserves st id status hash hids hfids htids hinv⟩

/-- Witness for C1: the preservation theorem applied to the concrete fresh
campaign fixture and a pending wallet investment. -/
theorem c1_server_ops_preserve_aggregate_invariant_witness :
    MemStorage.AggregatesConsistent
      (MemStorage.createTransaction stA
        { investorId := "X", startupId := "s1", amount := 100, method := "metamask",
          status := "pending", transactionId := none }).2 :=
  (c1_server_ops_preserve_aggregate_invariant stA (by decide) (by decide) (by decide)
    (by decide)).1 _

/-- Counterexample for C1 as stated: in the Firestore client implementation
(`firestore.ts` `createTransaction`), creating a *pending* wallet
investment of 100 on a fresh campaign leaves the stored `fundingRaised` at
100 while the sum over `completed` transactions is 0 — the cited code does
not maintain the invariant after every ledger operation. -/
theorem c1_firestore_pending_create_breaks_invariant_cex :
    Firestore.startupDoc
        ((Firestore.createTransaction fsA
          { investorId := "X", startupId := "s1", amount := 100, method := "metamask",
            status := "pending", transactionId := none }).2) "s1"
      = some { fundingGoal := 1000, fundingRaised := 100, investors := 1 } ∧
    Firestore.completedSum
        ((Firestore.createTransaction fsA
          { investorId := "X", startupId := "s1", amount := 100, method := "metamask",
            status := "pending", transactionId := none }).2) "s1"
      = 0 ∧ (100 : Rat) ≠ 0 := by
  refine ⟨?_, ?_, by norm_num⟩
  · norm_num [Firestore.startupDoc, Firestore.createTransaction, Firestore.getDocIn,
      Firestore.setDocIn, fsA, List.find?, List.filter]
    decide
  · norm_num [Firestore.completedSum, Firestore.createTransaction, Firestore.getDocIn,
      Firestore.setDocIn, fsA, List.find?, List.filter]
    decide

/-- C2: Opening an investment on the asynchronous wallet rail stores the
transaction as `pending` and leaves the campaign's raised total unchanged;
raised increases by the amount only when the status is subsequently
updated to `completed`, after which investor count and completed count
reflect the new transaction — proved here as the amended, server-side
statement (`MemStorage`); the Firestore client behaves differently, see
the counterexample. -/
theorem c2_wallet_pending_then_confirm_server :
    (∀ (st : MemStorage.State) (ins : MemStorage.InsertTxn),
        ins.status = "pending" →
        (MemStorage.createTransaction st ins).1.status = "pending" ∧
          (MemStorage.createTransaction st ins).2.startups = st.startups) ∧
      MemStorage.raisedOf stB1 "s1" = some 300 ∧
      MemStorage.raisedOf stB2 "s1" = some 500 ∧
      MemStorage.getStartupStats stB2 1 =
        .ok { fundingRaised := 500, fundingGoal := 1000, progress := 50,
              investors := 1, totalTransactions := 2 } := by
  refine ⟨?_, ?_, ?_, ?_⟩
  · intro st ins h
    have hc : (ins.status == "completed") = false := by rw [h]; decide
    constructor
    · exact h
    · unfold MemStorage.createTransaction
      dsimp only
      rw [if_neg (by simp [hc])]
  · norm_num [stB1, stB, MemStorage.raisedOf, MemStorage.createTransaction,
      MemStorage.getStartupByFirebaseId, MemStorage.updateStartupFunding,
      MemStorage.totalFunding, MemStorage.uniqueInvestors, MemStorage.completedFor,
      List.find?, List.filter, List.foldl]
  · norm_num [stB2, stB1, stB, MemStorage.raisedOf, MemStorage.createTransaction,
      MemStorage.updateTransactionStatus, MemStorage.getTransactionById,
      MemStorage.getStartupByFirebaseId, MemStorage.updateStartupFunding,
      MemStorage.totalFunding, MemStorage.uniqueInvestors, MemStorage.completedFor,
      jsStrOr, List.find?, List.filter, List.foldl, List.dedup, List.pwFilter]
  · norm_num [stB2, stB1, stB, MemStorage.getStartupStats, MemStorage.getStartupById,
      MemStorage.raisedOf, MemStorage.createTransaction,
      MemStorage.updateTransactionStatus, MemStorage.getTransactionById,
      MemStorage.getStartupByFirebaseId, MemStorage.updateStartupFunding,
      MemStorage.totalFunding, MemStorage.uniqueInvestors, MemStorage.completedFor,
      jsStrOr, List.find?, List.filter, List.foldl, List.dedup, List.pwFilter]

/-- Witness for C2: the pending-creation clause applied to the fresh
campaign fixture. -/
theorem c2_wallet_pending_then_confirm_server_witness :
    (MemStorage.createTransaction stA
        { investorId := "X", startupId := "s1", amount := 100, method := "metamask",
          status := "pending", transactionId := none }).1.status = "pending" ∧
      (MemStorage.createTransaction stA
        { investorId := "X", startupId := "s1", amount := 100, method := "metamask",
          status := "pending", transactionId := none }).2.startups = stA.startups :=
  c2_wallet_pending_then_confirm_server.1 stA _ rfl

/-- Counterexample for C2 as stated: in the Firestore client
implementation, creating the *pending* wallet transaction of 100 on a
fresh campaign immediately raises the stored `fundingRaised` to 100 (and
even bumps `investors`), so the raised total does not stay unchanged
until confirm. -/
theorem c2_firestore_pending_create_increases_raised_cex :
    Firestore.startupDoc fsRt1 "s1"
        = some { fundingGoal := 1000, fundingRaised := 100, investors := 1 } ∧
      Firestore.getDocIn fsRt1.transactions "tx0"
        = some { investorId := "X", startupId := "s1", amount := 100,
                 method := "metamask", status := "pending", transactionId := none } ∧
      (100 : Rat) ≠ 0 := by
  refine ⟨?_, ?_, by norm_num⟩
  · norm_num [fsRt1, fsA, Firestore.startupDoc, Firestore.createTransaction,
      Firestore.getDocIn, Firestore.setDocIn, List.find?, List.filter]
    decide
  · decide

/-- C3: the open(wallet,100) → confirm → reverse round trip.  In the server
implementation it restores both the raised total and the completed count to
their pre-open values (0 and 0); in the Firestore client implementation the
reverse step's revert branch re-reads the transaction *after* its status
was overwritten to `failed`, so the subtraction never executes and the
raised total stays at 100 — contradicting the code's own
"Only revert if it was previously completed" intent. -/
theorem c3_round_trip_server_restores_firestore_does_not :
    MemStorage.raisedOf stA "s1" = some 0 ∧
      (MemStorage.completedFor stA.transactions "s1").length = 0 ∧
      MemStorage.raisedOf stRt2 "s1" = some 100 ∧
      MemStorage.raisedOf stRt3 "s1" = some 0 ∧
      (MemStorage.completedFor stRt3.transactions "s1").length = 0 ∧
      Firestore.startupDoc fsA "s1"
        = some { fundingGoal := 1000, fundingRaised := 0, investors := 0 } ∧
      Firestore.startupDoc fsRt3 "s1"
        = some { fundingGoal := 1000, fundingRaised := 100, investors := 1 } ∧
      Firestore.completedCount fsRt3 "s1" = 0 ∧ (100 : Rat) ≠ 0 := by
  refine ⟨by decide, by decide, ?_, ?_, by decide, by decide, ?_, by decide, by norm_num⟩
  · norm_num [stRt2, stRt1, stA, MemStorage.raisedOf, MemStorage.createTransaction,
      MemStorage.updateTransactionStatus, MemStorage.getTransactionById,
      MemStorage.getStartupByFirebaseId, MemStorage.updateStartupFunding,
      MemStorage.totalFunding, MemStorage.uniqueInvestors, MemStorage.completedFor,
      jsStrOr, List.find?, List.filter, List.foldl, List.dedup, List.pwFilter]
  · norm_num [stRt3, stRt2, stRt1, stA, MemStorage.raisedOf, MemStorage.createTransaction,
      MemStorage.updateTransactionStatus, MemStorage.getTransactionById,
      MemStorage.getStartupByFirebaseId, MemStorage.updateStartupFunding,
      MemStorage.totalFunding, MemStorage.uniqueInvestors, MemStorage.completedFor,
      jsStrOr, List.find?, List.filter, List.foldl, List.dedup, List.pwFilter]
  · norm_num [fsRt3, fsRt2, fsRt1, fsA, Firestore.startupDoc,
      Firestore.createTransaction, Firestore.updateTransactionStatus,
      Firestore.getDocIn, Firestore.setDocIn, jsStrOr,
      List.find?, List.filter, List.foldl]
    decide

/-- C4: A status update other than pending→completed, pending→failed, or
completed→failed fails with `InvalidTransition`, leaves the record
untouched and applies no aggregate delta — refuted: the code performs no
transition validation at all (see the counterexample); what *is* true, and
is proved here as the amended claim, is the idempotence consequence: a
second confirm of an already-`completed` transaction changes no campaign
aggregate in either implementation (in the server because the recompute is
triggered only when `completed`-membership changes, in the Firestore
client because its status update never touches the startup document), so
`raised`, `investorCount` and `transactionCount` are never
double-applied. -/
theorem c4_duplicate_confirm_applies_no_aggregate_delta
    (st : MemStorage.State) (id : Nat) (hash : Option String) (tx0 : MemStorage.Txn)
    (hfind : MemStorage.getTransactionById st id = some tx0)
    (hst : tx0.status = "completed") :
    (MemStorage.updateTransactionStatus st id "completed" hash).2.startups = st.startups ∧
      (MemStorage.updateTransactionStatus st id "completed" hash).1
        = some { tx0 with
                 status := "completed"
                 transactionId := jsStrOr hash tx0.transactionId } ∧
      ∀ (fs : Firestore.State) (tid : String) (h2 : Option String) (res : Firestore.State),
        Firestore.updateTransactionStatus fs tid "completed" h2 = some res →
          res.startups = fs.startups := by
  refine ⟨?_, ?_, ?_⟩
  · unfold MemStorage.updateTransactionStatus
    rw [hfind]
    dsimp only
    rw [hst]
    rw [if_neg (by decide)]
  · unfold MemStorage.updateTransactionStatus
    rw [hfind]
  · intro fs tid h2 res hres
    unfold Firestore.updateTransactionStatus at hres
    cases hfind2 : Firestore.getDocIn fs.transactions tid with
    | none => rw [hfind2] at hres; exact absurd hres (by simp)
    | some t =>
      rw [hfind2] at hres
      dsimp only at hres
      rw [if_neg (by decide)] at hres
      cases hres
      rfl

/-- Witness for C4: the duplicate-confirm clause applied to the concrete
fixture `stB`, whose transaction 1 is already `completed`. -/
theorem c4_duplicate_confirm_applies_no_aggregate_delta_witness :
    (MemStorage.updateTransactionStatus stB 1 "completed" (some "0xdup")).2.startups
      = stB.startups :=
  (c4_duplicate_confirm_applies_no_aggregate_delta stB 1 (some "0xdup") _ rfl rfl).1

/-- Counterexample for C4 as stated: the `PATCH /api/transactions/:id/status`
route accepts the forbidden `failed → completed` transition — it returns
the updated record (no `InvalidTransition` failure), the stored record is
changed, and the aggregate recompute even adds the failed transaction's
amount to the campaign's raised total (0 → 100). -/
theorem c4_route_applies_failed_to_completed_cex :
    (Routes.patchTransactionStatus stFailedTx 1 "completed" (some "0xh")).1
        = .okJson { id := 1, investorId := "X", startupId := "s1", amount := 100,
                    method := "metamask", status := "completed",
                    transactionId := some "0xh" } ∧
      MemStorage.raisedOf stFailedTx "s1" = some 0 ∧
      MemStorage.raisedOf
          (Routes.patchTransactionStatus stFailedTx 1 "completed" (some "0xh")).2 "s1"
        = some 100 ∧
      (100 : Rat) ≠ 0 := by
  refine ⟨by decide, by decide, ?_, by norm_num⟩
  norm_num [Routes.patchTransactionStatus, stFailedTx, MemStorage.raisedOf,
    MemStorage.updateTransactionStatus, MemStorage.getTransactionById,
    MemStorage.getStartupByFirebaseId, MemStorage.updateStartupFunding,
    MemStorage.totalFunding, MemStorage.uniqueInvestors, MemStorage.completedFor,
    jsStrOr, List.find?, List.filter, List.foldl, List.dedup, List.pwFilter]

/-- C5: Creating a transaction with a non-positive amount fails with
`InvalidAmount` and persists nothing — refuted for the cited storage layer
(see the counterexample: the record is persisted); what holds, proved here
as the amended claim, is that (i) the client investment modal rejects a
non-positive or unparseable amount before anything is created, leaving the
state untouched, and (ii) the server `createTransaction` appends the
record to the transaction log unconditionally, with no amount
validation. -/
theorem c5_modal_rejects_nonpositive_storage_does_not :
    (∀ (st : Firestore.State) (inv sid code : String) (a : Rat), a ≤ 0 →
        InvestmentModal.handleSubmitUpi st inv sid (some a) code = (st, false)) ∧
      (∀ (st : Firestore.State) (inv sid code : String),
        InvestmentModal.handleSubmitUpi st inv sid none code = (st, false)) ∧
      ∀ (st : MemStorage.State) (ins : MemStorage.InsertTxn),
        (MemStorage.createTransaction st ins).2.transactions
          = st.transactions ++ [(MemStorage.createTransaction st ins).1] := by
  refine ⟨?_, ?_, ?_⟩
  · intro st inv sid code a h
    unfold InvestmentModal.handleSubmitUpi
    dsimp only
    rw [if_pos h]
  · intro st inv sid code
    rfl
  · intro st ins
    unfold MemStorage.createTransaction
    dsimp only
    by_cases hc : (ins.status == "completed") = true
    · rw [if_pos hc, MemStorage.updateStartupFunding_transactions]
    · rw [if_neg hc]

/-- Witness for C5: the modal-rejection clause applied at amount 0 on the
fresh Firestore fixture. -/
theorem c5_modal_rejects_nonpositive_storage_does_not_witness :
    InvestmentModal.handleSubmitUpi fsA "X" "s1" (some 0) "ABCDEF123456" = (fsA, false) :=
  c5_modal_rejects_nonpositive_storage_does_not.1 fsA "X" "s1" "ABCDEF123456" 0 (le_refl 0)

/-- Counterexample for C5 as stated: the server storage persists a
transaction record for amount 0 and for amount −5 — no `InvalidAmount`
failure occurs anywhere in the cited code (the insert schema carries no
positivity check either). -/
theorem c5_storage_persists_nonpositive_amount_cex :
    (MemStorage.createTransaction stA
        { investorId := "X", startupId := "s1", amount := 0, method := "upi",
          status := "pending", transactionId := none }).2.transactions.length = 1 ∧
      (MemStorage.createTransaction stA
        { investorId := "X", startupId := "s1", amount := -5, method := "upi",
          status := "pending", transactionId := none }).2.transactions.length = 1 ∧
      (MemStorage.createTransaction stA
        { investorId := "X", startupId := "s1", amount := 0, method := "upi",
          status := "pending", transactionId := none }).1
        = { id := 1, investorId := "X", startupId := "s1", amount := 0, method := "upi",
            status := "pending", transactionId := none } := by
  refine ⟨by decide, by decide, by decide⟩

/-- In the Firestore model, looking up the just-rewritten document returns
the new value (the re-read in `updateTransactionStatus` sees its own
write). -/
theorem Firestore.getDocIn_setDocIn {α : Type} :
    ∀ (coll : List (String × α)) (id : String) (v t : α),
      Firestore.getDocIn coll id = some t →
      Firestore.getDocIn (Firestore.setDocIn coll id v) id = some v := by
  intro coll
  induction coll with
  | nil =>
    intro id v t h
    simp [Firestore.getDocIn] at h
  | cons p rest ih =>
    obtain ⟨k, x⟩ := p
    intro id v t h
    unfold Firestore.setDocIn
    rw [List.map_cons]
    by_cases hk : (k == id) = true
    · have h1 : (if ((k, x) : String × α).1 == id then ((id, v) : String × α) else (k, x))
          = (id, v) := by
        simp only [hk, if_true]
      rw [h1]
      unfold Firestore.getDocIn
      rw [List.find?_cons_of_pos _ (by simp)]
      rfl
    · have h1 : (if ((k, x) : String × α).1 == id then ((id, v) : String × α) else (k, x))
          = (k, x) := by
        simp only [hk, Bool.false_eq_true, if_false]
      rw [h1]
      unfold Firestore.getDocIn at h ⊢
      rw [List.find?_cons_of_neg _ (by simpa using hk)] at h ⊢
      exact ih id v t h

/-- Non-negativity of the server recompute: a fold of non-negative amounts
starting from a non-negative accumulator stays non-negative. -/
theorem MemStorage.foldl_add_nonneg :
    ∀ (l : List MemStorage.Txn) (a : Rat), 0 ≤ a → (∀ t ∈ l, 0 ≤ t.amount) →
      0 ≤ l.foldl (fun s t => s + t.amount) a := by
  intro l
  induction l with
  | nil => intro a ha _; exact ha
  | cons t ts ih =>
    intro a ha h
    simp only [List.foldl_cons]
    exact ih _ (add_nonneg ha (h t (by simp))) (fun x hx => h x (by simp [hx]))

/-- The recomputed `fundingRaised` is non-negative whenever every stored
amount is. -/
theorem MemStorage.totalFunding_nonneg (txs : List MemStorage.Txn) (fid : String)
    (h : ∀ t ∈ txs, 0 ≤ t.amount) : 0 ≤ MemStorage.totalFunding txs fid :=
  MemStorage.foldl_add_nonneg _ 0 (le_refl 0)
    (fun t ht => h t (List.mem_of_mem_filter ht))

/-- After `updateStartupFunding`, every stored `fundingRaised` is
non-negative, provided it was before and all transaction amounts are
non-negative. -/
theorem MemStorage.updateStartupFunding_raised_nonneg (st : MemStorage.State)
    (u : MemStorage.Txn)
    (hs : ∀ s ∈ st.startups, 0 ≤ s.fundingRaised)
    (ht : ∀ t ∈ st.transactions, 0 ≤ t.amount) :
    ∀ s' ∈ (MemStorage.updateStartupFunding st u).startups, 0 ≤ s'.fundingRaised := by
  unfold MemStorage.updateStartupFunding
  cases hfind : MemStorage.getStartupByFirebaseId st u.startupId with
  | none => exact hs
  | some s0 =>
    intro s' hs'
    simp only [List.mem_map] at hs'
    obtain ⟨s, hsmem, rfl⟩ := hs'
    by_cases hid : (s.id == s0.id) = true
    · rw [if_pos hid]
      exact MemStorage.totalFunding_nonneg _ _ ht
    · rw [if_neg hid]
      exact hs s hsmem

/-- C6: A reverse that would drive `raised` below zero clamps it to exactly
zero and surfaces an `AggregateIntegrityWarning` — refuted: the Firestore
clamp sits in an unreachable branch and nothing is surfaced (see the
counterexample).  Amended and proved here: (i) the Firestore
`updateTransactionStatus` never changes any startup document at all (its
revert re-reads the transaction after overwriting the status, so the
clamped subtraction is dead code and no warning exists), and (ii) in the
server implementation every stored `fundingRaised` stays non-negative
after `createTransaction` and `updateTransactionStatus`, because the
recompute is a sum of the (non-negative) completed amounts. -/
theorem c6_firestore_reverse_is_noop_server_raised_nonneg :
    (∀ (fs : Firestore.State) (tid status : String) (hash : Option String)
        (res : Firestore.State),
        Firestore.updateTransactionStatus fs tid status hash = some res →
          res.startups = fs.startups) ∧
      ∀ (st : MemStorage.State),
        (∀ s ∈ st.startups, 0 ≤ s.fundingRaised) →
        (∀ t ∈ st.transactions, 0 ≤ t.amount) →
        (∀ ins : MemStorage.InsertTxn, 0 ≤ ins.amount →
          ∀ s' ∈ (MemStorage.createTransaction st ins).2.startups, 0 ≤ s'.fundingRaised) ∧
        (∀ (id : Nat) (status : String) (hash : Option String),
          ∀ s' ∈ (MemStorage.updateTransactionStatus st id status hash).2.startups,
            0 ≤ s'.fundingRaised) := by
  constructor
  · intro fs tid status hash res hres
    unfold Firestore.updateTransactionStatus at hres
    cases hfind : Firestore.getDocIn fs.transactions tid with
    | none => rw [hfind] at hres; exact absurd hres (by simp)
    | some t =>
      rw [hfind] at hres
      dsimp only at hres
      by_cases hstat : (status == "failed") = true
      · have hsf : status = "failed" := by simpa using hstat
        subst hsf
        rw [if_pos (by decide)] at hres
        have hre := Firestore.getDocIn_setDocIn fs.transactions tid
          { t with status := "failed", transactionId := jsStrOr hash t.transactionId } t hfind
        rw [hre] at hres
        dsimp only at hres
        rw [if_neg (by decide)] at hres
        cases hres
        rfl
      · rw [if_neg hstat] at hres
        cases hres
        rfl
  · intro st hs ht
    constructor
    · intro ins hins
      unfold MemStorage.createTransaction
      dsimp only
      have hamts : ∀ t ∈ st.transactions ++
          [({ id := st.currentTransactionId, investorId := ins.investorId,
              startupId := ins.startupId, amount := ins.amount, method := ins.method,
              status := ins.status, transactionId := ins.transactionId } : MemStorage.Txn)],
          0 ≤ t.amount := by
        intro t htmem
        rcases List.mem_append.mp htmem with h1 | h1
        · exact ht t h1
        · simp only [List.mem_singleton] at h1
          subst h1
          exact hins
      by_cases hc : (ins.status == "completed") = true
      · rw [if_pos hc]
        exact MemStorage.updateStartupFunding_raised_nonneg _ _ hs hamts
      · rw [if_neg hc]
        exact hs
    · intro id status hash
      unfold MemStorage.updateTransactionStatus
      cases hfind : MemStorage.getTransactionById st id with
      | none => exact hs
      | some tx0 =>
        dsimp only
        have hfind' : st.transactions.find? (fun t => t.id == id) = some tx0 := hfind
        have htx0 : tx0 ∈ st.transactions := List.mem_of_find?_eq_some hfind'
        have hamts : ∀ t' ∈ st.transactions.map (fun t =>
            if t.id == id then
              ({ tx0 with
                 status := status
                 transactionId := jsStrOr hash tx0.transactionId } : MemStorage.Txn)
            else t), 0 ≤ t'.amount := by
          intro t' ht'
          simp only [List.mem_map] at ht'
          obtain ⟨t, htm, rfl⟩ := ht'
          by_cases htid : (t.id == id) = true
          · rw [if_pos htid]
            exact ht tx0 htx0
          · rw [if_neg htid]
            exact ht t htm
        by_cases hc : ((status == "completed" && tx0.status != "completed")
            || (status != "completed" && tx0.status == "completed")) = true
        · rw [if_pos hc]
          exact MemStorage.updateStartupFunding_raised_nonneg _ _ hs hamts
        · rw [if_neg hc]
          exact hs

/-- Witness for C6: the Firestore no-op clause applied to the concrete
reverse of "t1" in the clamp fixture. -/
theorem c6_firestore_reverse_is_noop_server_raised_nonneg_witness :
    ({ startups := [("s1", { fundingGoal := 1000, fundingRaised := 50, investors := 1 })],
       transactions := [("t1", { investorId := "X", startupId := "s1", amount := 100,
                                 method := "upi", status := "failed",
                                 transactionId := some "ABCDEF123456" })],
       nextDocId := 2 } : Firestore.State).startups = fsClampCase.startups :=
  c6_firestore_reverse_is_noop_server_raised_nonneg.1 fsClampCase "t1" "failed" none _
    (by decide)

/-- Counterexample for C6 as stated: reversing the completed transaction
"t1" (amount 100) on a campaign whose stored raised total is 50 — the
subtraction would drive `raised` to −50, so the claim demands a clamp to
exactly 0 plus a surfaced warning; the code instead leaves `raised` at 50
(the revert branch is unreachable) and returns nothing besides the state. -/
theorem c6_reverse_below_zero_not_clamped_cex :
    Firestore.updateTransactionStatus fsClampCase "t1" "failed" none
        = some
          { startups := [("s1", { fundingGoal := 1000, fundingRaised := 50, investors := 1 })],
            transactions := [("t1", { investorId := "X", startupId := "s1", amount := 100,
                                      method := "upi", status := "failed",
                                      transactionId := some "ABCDEF123456" })],
            nextDocId := 2 } ∧
      (50 : Rat) ≠ 0 :=
  ⟨by decide, by norm_num⟩

/-- JavaScript `undefined || b` is `b`. -/
theorem jsStrOr_none (b : Option String) : jsStrOr none b = b := rfl

/-- After replacing the transaction with the matched id, `find?` by that id
returns the replacement. -/
theorem MemStorage.find?_replace :
    ∀ (txs : List MemStorage.Txn) (id : Nat) (u tx0 : MemStorage.Txn),
      txs.find? (fun t => t.id == id) = some tx0 → (u.id == id) = true →
      (txs.map (fun t => if t.id == id then u else t)).find? (fun t => t.id == id)
        = some u := by
  intro txs
  induction txs with
  | nil =>
    intro id u tx0 h _
    simp at h
  | cons t ts ih =>
    intro id u tx0 h hu
    rw [List.map_cons]
    by_cases htid : (t.id == id) = true
    · rw [if_pos htid]
      exact List.find?_cons_of_pos _ hu
    · rw [if_neg htid]
      rw [List.find?_cons_of_neg _ (by simpa using htid)] at h
      rw [List.find?_cons_of_neg _ (by simpa using htid)]
      exact ih id u tx0 h hu

/-- The server status update never touches the transaction list except via
the single keyed replacement. -/
theorem MemStorage.updateTransactionStatus_transactions (st : MemStorage.State)
    (id : Nat) (status : String) (hash : Option String) (tx0 : MemStorage.Txn)
    (hfind : MemStorage.getTransactionById st id = some tx0) :
    (MemStorage.updateTransactionStatus st id status hash).2.transactions
      = st.transactions.map (fun t =>
          if t.id == id then
            ({ tx0 with
               status := status
               transactionId := jsStrOr hash tx0.transactionId } : MemStorage.Txn)
          else t) := by
  unfold MemStorage.updateTransactionStatus
  rw [hfind]
  dsimp only
  by_cases hc : ((status == "completed" && tx0.status != "completed")
      || (status != "completed" && tx0.status == "completed")) = true
  · rw [if_pos hc, MemStorage.updateStartupFunding_transactions]
  · rw [if_neg hc]

/-- C7: once a transaction's rail reference (`transactionId`) is set, no
status update clears it: with no new hash supplied, both implementations
return and store the record with the previously stored reference intact,
and with any hash supplied the stored reference remains present. -/
theorem c7_rail_reference_never_cleared :
    (∀ (st : MemStorage.State) (id : Nat) (status : String) (tx0 : MemStorage.Txn)
        (r : String),
        MemStorage.getTransactionById st id = some tx0 →
        tx0.transactionId = some r →
        (MemStorage.updateTransactionStatus st id status none).1
            = some { tx0 with status := status } ∧
          MemStorage.getTransactionById
              (MemStorage.updateTransactionStatus st id status none).2 id
            = some { tx0 with status := status } ∧
          ({ tx0 with status := status } : MemStorage.Txn).transactionId = some r ∧
          ∀ (hash : Option String) (tx' : MemStorage.Txn),
            (MemStorage.updateTransactionStatus st id status hash).1 = some tx' →
            tx'.transactionId.isSome = true) ∧
      ∀ (fs : Firestore.State) (tid status : String) (t0 : Firestore.TxnData)
        (r : String) (res : Firestore.State),
        Firestore.getDocIn fs.transactions tid = some t0 →
        t0.transactionId = some r →
        Firestore.updateTransactionStatus fs tid status none = some res →
        Firestore.getDocIn res.transactions tid = some { t0 with status := status } ∧
          ({ t0 with status := status } : Firestore.TxnData).transactionId = some r := by
  constructor
  · intro st id status tx0 r hfind hr
    have hfind' : st.transactions.find? (fun t => t.id == id) = some tx0 := hfind
    have htx0id : (tx0.id == id) = true := by
      have := List.find?_some hfind'
      simpa using this
    refine ⟨?_, ?_, hr, ?_⟩
    · unfold MemStorage.updateTransactionStatus
      rw [hfind]
      rfl
    · show (MemStorage.updateTransactionStatus st id status none).2.transactions.find?
          (fun t => t.id == id) = some _
      rw [MemStorage.updateTransactionStatus_transactions st id status none tx0 hfind]
      exact MemStorage.find?_replace st.transactions id _ tx0 hfind' htx0id
    · intro hash tx' h
      unfold MemStorage.updateTransactionStatus at h
      rw [hfind] at h
      dsimp only at h
      cases h
      rw [hr]
      cases hash with
      | none => rfl
      | some s =>
        by_cases hs : s = "" <;> simp [jsStrOr, hs]
  · intro fs tid status t0 r res hfind hr hres
    unfold Firestore.updateTransactionStatus at hres
    rw [hfind] at hres
    dsimp only at hres
    simp only [jsStrOr_none] at hres
    have hset := Firestore.getDocIn_setDocIn fs.transactions tid
      ({ t0 with status := status } : Firestore.TxnData) t0 hfind
    by_cases hstat : (status == "failed") = true
    · have hsf : status = "failed" := by simpa using hstat
      subst hsf
      rw [if_pos (by decide)] at hres
      rw [hset] at hres
      dsimp only at hres
      rw [if_neg (by decide)] at hres
      cases hres
      exact ⟨hset, hr⟩
    · rw [if_neg hstat] at hres
      cases hres
      exact ⟨hset, hr⟩

/-- Witness for C7: the server clause applied to `stB`, whose transaction 1
carries the offline reference "ABCDEF123456", under a status update to
`failed` with no new hash. -/
theorem c7_rail_reference_never_cleared_witness :
    (MemStorage.updateTransactionStatus stB 1 "failed" none).1
        = some { id := 1, investorId := "X", startupId := "s1", amount := 300,
                 method := "upi", status := "failed",
                 transactionId := some "ABCDEF123456" } ∧
      MemStorage.getTransactionById
          (MemStorage.updateTransactionStatus stB 1 "failed" none).2 1
        = some { id := 1, investorId := "X", startupId := "s1", amount := 300,
                 method := "upi", status := "failed",
                 transactionId := some "ABCDEF123456" } ∧
      ({ id := 1, investorId := "X", startupId := "s1", amount := 300,
         method := "upi", status := "failed",
         transactionId := some "ABCDEF123456" } : MemStorage.Txn).transactionId
        = some "ABCDEF123456" ∧
      ∀ (hash : Option String) (tx' : MemStorage.Txn),
        (MemStorage.updateTransactionStatus stB 1 "failed" hash).1 = some tx' →
        tx'.transactionId.isSome = true :=
  c7_rail_reference_never_cleared.1 stB 1 "failed" _ "ABCDEF123456" rfl rfl

/-- The code's syntactic reference check coincides with the spec's wording
of it: after trimming, non-empty, only letters/digits/hyphen/underscore,
and at least 12 characters. -/
theorem Upi.validate_iff (s : String) :
    Upi.validateUPITransactionId s = true ↔ Upi.SpecReferenceCheck s := by
  unfold Upi.validateUPITransactionId Upi.upiTxIdRegexTest Upi.SpecReferenceCheck
  by_cases hg : (s == "" || (Upi.jsTrim s).length == 0) = true
  · rw [if_pos hg]
    constructor
    · intro h
      exact absurd h (by simp)
    · rintro ⟨hne, _, hlen⟩
      exfalso
      rcases (by simpa using hg : s = "" ∨ (Upi.jsTrim s).length = 0) with h1 | h1
      · subst h1
        exact hne rfl
      · omega
  · rw [if_neg hg]
    rw [Bool.and_eq_true]
    constructor
    · rintro ⟨h1, h2⟩
      have hlen : 12 ≤ (Upi.jsTrim s).length := of_decide_eq_true h1
      refine ⟨?_, ?_, hlen⟩
      · intro hT
        rw [hT] at hlen
        exact absurd hlen (by decide)
      · intro c hc
        exact List.all_eq_true.mp h2 c hc
    · rintro ⟨_, hall, hlen⟩
      exact ⟨decide_eq_true hlen, List.all_eq_true.mpr hall⟩

/-- `addDoc` always appends the new transaction document, whatever the
aggregate side effect does. -/
theorem Firestore.createTransaction_transactions (st : Firestore.State)
    (d : Firestore.TxnData) :
    (Firestore.createTransaction st d).2.transactions
      = st.transactions ++ [("tx" ++ toString st.nextDocId, d)] := by
  unfold Firestore.createTransaction
  dsimp only
  cases Firestore.getDocIn st.startups d.startupId <;> rfl

/-- C8: The offline (UPI) rail completes synchronously exactly when the
user-supplied reference code passes the syntactic check — trimmed, the
code is non-empty, uses only letters, digits, hyphens or underscores, and
is at least 12 characters long; a failing code creates no transaction and
changes nothing.  The first clause identifies the code's
`validateUPITransactionId` with the spec-worded check; the rest describes
the modal's UPI branch for a positive amount. -/
theorem c8_offline_rail_completed_iff_reference_check :
    (∀ s : String, Upi.validateUPITransactionId s = true ↔ Upi.SpecReferenceCheck s) ∧
      ∀ (st : Firestore.State) (inv sid : String) (a : Rat) (code : String), 0 < a →
        ((InvestmentModal.handleSubmitUpi st inv sid (some a) code).2 = true
            ↔ Upi.SpecReferenceCheck code) ∧
          (¬ Upi.SpecReferenceCheck code →
            InvestmentModal.handleSubmitUpi st inv sid (some a) code = (st, false)) ∧
          (Upi.SpecReferenceCheck code →
            (InvestmentModal.handleSubmitUpi st inv sid (some a) code).1.transactions
              = st.transactions ++
                [("tx" ++ toString st.nextDocId,
                  { investorId := inv, startupId := sid, amount := a, method := "upi",
                    status := "completed", transactionId := some code })]) := by
  refine ⟨Upi.validate_iff, ?_⟩
  intro st inv sid a code h0
  have hle : ¬ (a ≤ 0) := not_le.mpr h0
  unfold InvestmentModal.handleSubmitUpi
  dsimp only
  rw [if_neg hle]
  by_cases hv : Upi.validateUPITransactionId code = true
  · have hnv : (!Upi.validateUPITransactionId code) = false := by rw [hv]; rfl
    rw [hnv]
    rw [if_neg (by decide)]
    refine ⟨⟨fun _ => (Upi.validate_iff code).mp hv, fun _ => rfl⟩, ?_, ?_⟩
    · intro hn
      exact absurd ((Upi.validate_iff code).mp hv) hn
    · intro _
      exact Firestore.createTransaction_transactions st _
  · have hvf : Upi.validateUPITransactionId code = false := by
      cases h : Upi.validateUPITransactionId code
      · rfl
      · exact absurd h hv
    have hnv : (!Upi.validateUPITransactionId code) = true := by rw [hvf]; rfl
    rw [hnv]
    rw [if_pos rfl]
    refine ⟨⟨fun h => absurd h (by simp), fun hs => absurd ((Upi.validate_iff code).mpr hs) hv⟩,
      fun _ => rfl, fun hs => absurd ((Upi.validate_iff code).mpr hs) hv⟩

/-- Witness for C8: the modal clause applied to the fresh Firestore fixture
with amount 300 and Scenario A's reference code. -/
theorem c8_offline_rail_completed_iff_reference_check_witness :
    ((InvestmentModal.handleSubmitUpi fsA "X" "s1" (some 300) "ABCDEF123456").2 = true
        ↔ Upi.SpecReferenceCheck "ABCDEF123456") ∧
      (¬ Upi.SpecReferenceCheck "ABCDEF123456" →
        InvestmentModal.handleSubmitUpi fsA "X" "s1" (some 300) "ABCDEF123456"
          = (fsA, false)) ∧
      (Upi.SpecReferenceCheck "ABCDEF123456" →
        (InvestmentModal.handleSubmitUpi fsA "X" "s1" (some 300) "ABCDEF123456").1.transactions
          = fsA.transactions ++
            [("tx" ++ toString fsA.nextDocId,
              { investorId := "X", startupId := "s1", amount := 300, method := "upi",
                status := "completed", transactionId := some "ABCDEF123456" })]) :=
  c8_offline_rail_completed_iff_reference_check.2 fsA "X" "s1" 300 "ABCDEF123456" (by decide)

/-- C9: The stats accessor returns an explicit NotFound for a missing
campaign — refuted: both implementations throw an untyped error (see the
counterexample; the HTTP route surfaces it as a 500).  Amended and proved
here: on a missing campaign the server accessor produces the thrown
`Startup with ID ... not found` error, and for an existing campaign both
accessors return `progressPercent = raised / goal * 100` when `goal > 0`
(and the server returns 0 otherwise), with investor and completed counts
recomputed from the log. -/
theorem c9_stats_formula_for_existing_campaign :
    (∀ (st : MemStorage.State) (id : Nat) (s : MemStorage.Startup),
        MemStorage.getStartupById st id = some s →
        MemStorage.getStartupStats st id
          = .ok { fundingRaised := s.fundingRaised
                  fundingGoal := s.fundingGoal
                  progress := if s.fundingGoal > 0
                    then s.fundingRaised / s.fundingGoal * 100 else 0
                  investors := MemStorage.uniqueInvestors st.transactions s.firebaseId
                  totalTransactions :=
                    (MemStorage.completedFor st.transactions s.firebaseId).length }) ∧
      (∀ (st : MemStorage.State) (id : Nat),
        MemStorage.getStartupById st id = none →
        MemStorage.getStartupStats st id
          = .error ("Startup with ID " ++ toString id ++ " not found")) ∧
      ∀ (fs : Firestore.State) (sid : String) (sd : Firestore.StartupData),
        Firestore.getDocIn fs.startups sid = some sd →
        0 < sd.fundingGoal →
        Firestore.getStartupStats fs sid
          = .ok { fundingRaised := sd.fundingRaised
                  fundingGoal := sd.fundingGoal
                  progress := sd.fundingRaised / sd.fundingGoal * 100
                  investors := ((fs.transactions.filter (fun p =>
                      p.2.startupId == sid && p.2.status == "completed")).map
                        (fun p => p.2.investorId)).dedup.length
                  totalTransactions := (fs.transactions.filter (fun p =>
                      p.2.startupId == sid && p.2.status == "completed")).length } := by
  refine ⟨?_, ?_, ?_⟩
  · intro st id s h
    unfold MemStorage.getStartupStats
    rw [h]
  · intro st id h
    unfold MemStorage.getStartupStats
    rw [h]
  · intro fs sid sd h hg
    unfold Firestore.getStartupStats
    rw [h]
    dsimp only
    rw [if_pos (ne_of_gt hg)]

/-- Witness for C9: the server clause applied to the fresh fixture's
campaign 1. -/
theorem c9_stats_formula_for_existing_campaign_witness :
    MemStorage.getStartupStats stA 1
      = .ok { fundingRaised := 0
              fundingGoal := 1000
              progress := if (1000 : Rat) > 0 then (0 : Rat) / 1000 * 100 else 0
              investors := MemStorage.uniqueInvestors stA.transactions "s1"
              totalTransactions := (MemStorage.completedFor stA.transactions "s1").length } :=
  c9_stats_formula_for_existing_campaign.1 stA 1
    { id := 1, firebaseId := "s1", fundingGoal := 1000, fundingRaised := 0, investors := 0 }
    rfl

/-- Counterexample for C9 as stated: both implementations throw an untyped
`Error` (modelled as `Except.error` with the thrown message) for a missing
campaign instead of returning an explicit NotFound value; the route maps
the exception to an HTTP 500. -/
theorem c9_stats_missing_campaign_throws_cex :
    MemStorage.getStartupStats stA 2 = .error "Startup with ID 2 not found" ∧
      Firestore.getStartupStats fsA "s2" = .error "Startup not found" :=
  ⟨rfl, rfl⟩

/-- C10: Investor statistics are derived exclusively from the investor's
`completed` transactions — `totalInvested` is the sum of their amounts,
`activeInvestments` the number of distinct campaigns among them,
`totalTransactions` their count — and appending a `pending` or `failed`
transaction changes none of the three values, in either implementation. -/
theorem c10_investor_stats_completed_only :
    (∀ (st : MemStorage.State) (inv : String),
        MemStorage.getInvestorStats st inv =
          { totalInvested := (st.transactions.filter (fun t =>
                t.investorId == inv && t.status == "completed")).foldl
                  (fun sum t => sum + t.amount) 0
            activeInvestments := ((st.transactions.filter (fun t =>
                t.investorId == inv && t.status == "completed")).map
                  (fun t => t.startupId)).dedup.length
            totalTransactions := (st.transactions.filter (fun t =>
                t.investorId == inv && t.status == "completed")).length }) ∧
      (∀ (st : MemStorage.State) (inv : String) (tx : MemStorage.Txn),
        tx.status ≠ "completed" →
        MemStorage.getInvestorStats
            { st with transactions := st.transactions ++ [tx] } inv
          = MemStorage.getInvestorStats st inv) ∧
      ∀ (fs : Firestore.State) (inv : String) (p : String × Firestore.TxnData),
        p.2.status ≠ "completed" →
        Firestore.getInvestorStats
            { fs with transactions := fs.transactions ++ [p] } inv
          = Firestore.getInvestorStats fs inv := by
  have hfused : ∀ (txs : List MemStorage.Txn) (inv : String),
      (txs.filter (fun t => t.investorId == inv)).filter (fun t => t.status == "completed")
        = txs.filter (fun t => t.investorId == inv && t.status == "completed") := by
    intro txs inv
    induction txs with
    | nil => rfl
    | cons t ts ih =>
      by_cases h1 : (t.investorId == inv) = true
      · by_cases h2 : (t.status == "completed") = true
        · simp [List.filter_cons, h1, h2, ih]
        · simp [List.filter_cons, h1, h2, ih]
      · by_cases h2 : (t.status == "completed") = true
        · simp [List.filter_cons, h1, h2, ih]
        · simp [List.filter_cons, h1, h2, ih]
  refine ⟨?_, ?_, ?_⟩
  · intro st inv
    unfold MemStorage.getInvestorStats
    dsimp only
    rw [hfused]
  · intro st inv tx htx
    have hst : (tx.status == "completed") = false := beq_eq_false_iff_ne.mpr htx
    unfold MemStorage.getInvestorStats
    dsimp only
    rw [hfused, hfused, List.filter_append]
    simp [hst]
  · intro fs inv p hp
    have hst : (p.2.status == "completed") = false := beq_eq_false_iff_ne.mpr hp
    unfold Firestore.getInvestorStats
    dsimp only
    rw [List.filter_append]
    simp [hst]

/-- Witness for C10: appending a pending transaction does not change the
investor statistics, at the concrete Scenario-A fixture. -/
theorem c10_investor_stats_completed_only_witness :
    MemStorage.getInvestorStats
        { stB with transactions := stB.transactions ++
            [{ id := 2, investorId := "X", startupId := "s1", amount := 200,
               method := "metamask", status := "pending", transactionId := none }] } "X"
      = MemStorage.getInvestorStats stB "X" :=
  c10_investor_stats_completed_only.2.1 stB "X"
    { id := 2, investorId := "X", startupId := "s1", amount := 200,
      method := "metamask", status := "pending", transactionId := none }
    (by decide)
